import Mathlib

/-!
Shallow embedding of the RAG pipeline in `docs/examples/rag_weaviate.ipynb`:
the chunking loop (cell-12), the title/text concatenation pass (cell-14),
the collection lifecycle (cell-20), the record construction (cell-22), the
batch insertion (cell-24), and the generative query (cell-28).  Components
that live outside this repository (the hierarchical chunker of docling-core,
the Weaviate client internals) are modelled from the specification and are
marked as such in their doc comments.
-/

namespace RagWeaviate

/-- A record inserted into the Weaviate collection, as built in cell-22:
a dictionary with exactly the fields `text` and `title` (and nothing else —
in particular, no `id` field). -/
structure DataPoint where
  text : String
  title : String
deriving Repr, DecidableEq

/-- Cell-12: the chunking loop.  The external chunker (docling-core's
`HierarchicalChunker().chunk`, not part of this repository) is passed as the
function `chunkTexts`, returning the list of `chunk.text` values for one
document.  The loop runs over `zip(docs, source_titles)` and, for each chunk
of each document, appends `chunk.text` to `texts` and the document's title to
`titles`. -/
def chunkingLoop {α : Type} (chunkTexts : α → List String)
    (docs : List α) (sourceTitles : List String) : List String × List String :=
  (docs.zip sourceTitles).foldl
    (fun acc p => (acc.1 ++ chunkTexts p.1,
                   acc.2 ++ (chunkTexts p.1).map (fun _ => p.2)))
    ([], [])

/-- Cell-14: `for i in range(len(texts)): texts[i] = f"{titles[i]} {texts[i]}"`.
Each collected chunk text is overwritten with the corresponding title, a
single space, and the old text.  If `titles` is shorter than `texts` the
Python raises an `IndexError`, modelled as `none`. -/
def concatTitleText (titles texts : List String) : Option (List String) :=
  if texts.length ≤ titles.length then
    some (List.zipWith (fun ti t => ti ++ " " ++ t) titles texts)
  else
    none

/-- Cell-22: `for text, title in zip(texts, titles): data.append({"text": text,
"title": title})`. -/
def buildData (texts titles : List String) : List DataPoint :=
  List.zipWith (fun t ti => { text := t, title := ti }) texts titles

/-- The embedded Weaviate instance state, at the granularity the notebook
touches it: a list of named collections, each holding its inserted records. -/
abbrev Store := List (String × List DataPoint)

/-- Cell-20: `client.collections.exists(collection_name)`. -/
def collectionsExists (s : Store) (name : String) : Bool :=
  s.any (fun p => p.1 == name)

/-- Cell-20: `client.collections.delete(collection_name)` removes every
collection with that name. -/
def collectionsDelete (s : Store) (name : String) : Store :=
  s.filter (fun p => p.1 != name)

/-- Cell-20: `client.collections.create(name=collection_name, ...)` adds a
fresh, empty collection. -/
def collectionsCreate (s : Store) (name : String) : Store :=
  (name, []) :: s

/-- Cell-24: `collection.data.insert_many(data)` appends the batch to the
named collection's records. -/
def dataInsertMany (s : Store) (name : String) (data : List DataPoint) : Store :=
  s.map (fun p => if p.1 == name then (p.1, p.2 ++ data) else p)

/-- Contents of a named collection, if it exists. -/
def collGet (s : Store) (name : String) : Option (List DataPoint) :=
  (s.find? (fun p => p.1 == name)).map Prod.snd

/-- The indexing sequence of cells 20 and 24: delete the collection if it
already exists, create it anew, then insert the whole record batch. -/
def reindex (s : Store) (name : String) (data : List DataPoint) : Store :=
  let s1 := if collectionsExists s name then collectionsDelete s name else s
  let s2 := collectionsCreate s1 name
  dataInsertMany s2 name data

/-- Modelled from the spec: the weaviate client's `insert_many` (external to
this repository) assigns each inserted object an id.  The records built in
cell-22 carry no id field, so the id of the i-th record comes entirely from
the client's id source (a freshly generated random UUID per call), here the
external function `gen`. -/
def insertManyWithGen (gen : Nat → String) (data : List DataPoint) :
    List (String × DataPoint) :=
  data.enum.map (fun p => (gen p.1, p.2))

/-- Recursive worker for `insertManyBatch`: processes the batch in order,
keeping the records the store accepted and recording a per-position error for
each rejected one.  `i` is the index of the first record of the remaining
batch. -/
def insertManyGo (fails : DataPoint → Option String) (i : Nat) :
    List DataPoint → List DataPoint × List (Nat × String)
  | [] => ([], [])
  | d :: ds =>
    let rest := insertManyGo fails (i + 1) ds
    match fails d with
    | some e => (rest.1, (i, e) :: rest.2)
    | none => (d :: rest.1, rest.2)

/-- Modelled from the spec: batch upsert with partial failure, the contract of
`collection.data.insert_many` consumed in cell-24 (the client itself is
external to this repository).  `fails` says whether the store rejects a given
record (and with what message).  The result is the new collection contents
(old contents plus every accepted record, in order) and the per-position
error report, mirroring `response.errors`; `response.has_errors` is the
report being nonempty. -/
def insertManyBatch (fails : DataPoint → Option String)
    (contents : List DataPoint) (data : List DataPoint) :
    List DataPoint × List (Nat × String) :=
  let r := insertManyGo fails 0 data
  (contents ++ r.1, r.2)

/-- Ordered insertion used by `rankByScore`: places `d` before the first
element of strictly smaller score. -/
def insertByScore (score : DataPoint → Nat) (d : DataPoint) :
    List DataPoint → List DataPoint
  | [] => [d]
  | e :: es => if score e < score d then d :: e :: es else e :: insertByScore score d es

/-- Modelled from the spec: the vector store's similarity ranking (external to
this repository) — the collection's records ordered by descending similarity
score. -/
def rankByScore (score : DataPoint → Nat) : List DataPoint → List DataPoint
  | [] => []
  | d :: ds => insertByScore score d (rankByScore score ds)

/-- The response object of `collection.generate.near_text` (cell-28): the
retrieved objects together with the generated text. -/
structure GenerativeResponse where
  objects : List DataPoint
  generated : String
deriving Repr, DecidableEq

/-- Modelled from the spec: `collection.generate.near_text(query=query,
limit=k, grouped_task=prompt, ...)` as invoked in cell-28 (the client and the
generation service are external to this repository).  The query is scored
against the collection by the external similarity `score`, the top `limit`
records are retrieved, and the external generation service `complete` is
called once on the task prompt and exactly those records; the response
carries both the retrieved objects and the generated text. -/
def generateNearText (score : String → DataPoint → Nat)
    (complete : String → List DataPoint → String)
    (contents : List DataPoint) (query : String) (limit : Nat)
    (task : String) : GenerativeResponse :=
  let objs := (rankByScore (score query) contents).take limit
  { objects := objs, generated := complete task objs }

/-- Modelled from the spec: a node of the Structural Document Model (§3).
The converter and document model live outside this repository; the node
kinds are the spec's closed taxonomy (Title, SectionHeader(level),
Paragraph, ListItem, TableCell grouped into its owning table, Caption,
Other). -/
inductive DocNode where
  | sectionHeader (level : Nat) (text : String) (children : List DocNode)
  | paragraph (text : String)
  | listItem (text : String)
  | caption (text : String)
  | table (rows : List (List String))
  | title (text : String)
  | group (children : List DocNode)
deriving Repr

/-- Modelled from the spec: the recognized chunking options (§3) —
`max_tokens`, `merge_peers`, `min_tokens` and the tokenizer used as the size
metric. -/
structure ChunkingConfig where
  maxTokens : Nat
  mergePeers : Bool
  minTokens : Nat
  tokenizer : String → Nat

/-- Modelled from the spec: the Chunk record (§3) with its ordinal id, the
composed text and the HeadingPath snapshot at the chunk's start. -/
structure Chunk where
  id : Nat
  text : String
  headingPath : List (Nat × String)
deriving Repr, DecidableEq

/-- Leaf texts of one segment joined by a single blank-line separator
(spec §4.1 step 5). -/
def joinBlank (xs : List String) : String :=
  String.intercalate "\n\n" xs

/-- Row-major textual serialization of a table grid (spec §4.1 step 5). -/
def tableText (rows : List (List String)) : String :=
  String.intercalate "\n" (rows.map (String.intercalate " | "))

/-- HeadingPath update (spec §3): pushing a SectionHeader at level `level`
truncates the path to headers of smaller level before appending. -/
def pushPath (path : List (Nat × String)) (level : Nat) (text : String) :
    List (Nat × String) :=
  path.takeWhile (fun q => q.1 < level) ++ [(level, text)]

/-- Traversal state of the chunker (spec §4.1 step 1): the live HeadingPath,
the current segment of leaf texts with the HeadingPath snapshot taken at its
start, and the segments emitted so far. -/
structure TravState where
  path : List (Nat × String)
  seg : List String
  segPath : List (Nat × String)
  emitted : List (List String × List (Nat × String))

/-- Close the pending segment into an emitted candidate chunk; an empty
segment emits nothing. -/
def emitSeg (st : TravState) : TravState :=
  if st.seg.isEmpty then st
  else { st with emitted := st.emitted ++ [(st.seg, st.segPath)], seg := [],
                 segPath := st.path }

/-- Add one leaf to the traversal (spec §4.1 step 2): when adding it would
push the segment's token count above `max_tokens`, the pending segment is
emitted without the new leaf and a new segment starts with that leaf; a leaf
starting an empty segment is always accepted, so an oversized atomic leaf is
emitted unsplit. -/
def addLeaf (cfg : ChunkingConfig) (st : TravState) (txt : String) : TravState :=
  if st.seg.isEmpty then { st with seg := [txt], segPath := st.path }
  else if cfg.tokenizer (joinBlank (st.seg ++ [txt])) > cfg.maxTokens then
    let st1 := emitSeg st
    { st1 with seg := [txt], segPath := st1.path }
  else
    { st with seg := st.seg ++ [txt] }

mutual

/-- Depth-first pre-order walk of one node (spec §4.1): a SectionHeader
closes the pending segment (a new section always starts a fresh chunk) and
updates the HeadingPath for its children; Paragraph, ListItem and Caption are
segment leaves; a table is one atomic leaf carrying its serialized grid,
never split; the document Title is document-level metadata, not chunk
content; Other nodes are containers. -/
def walkNode (cfg : ChunkingConfig) (st : TravState) : DocNode → TravState
  | .sectionHeader level text children =>
    let st1 := emitSeg st
    let p := pushPath st1.path level text
    walkChildren cfg { st1 with path := p, segPath := p } children
  | .paragraph text => addLeaf cfg st text
  | .listItem text => addLeaf cfg st text
  | .caption text => addLeaf cfg st text
  | .table rows => addLeaf cfg st (tableText rows)
  | .title _ => st
  | .group children => walkChildren cfg st children

/-- Walk an ordered child list in document order. -/
def walkChildren (cfg : ChunkingConfig) (st : TravState) :
    List DocNode → TravState
  | [] => st
  | c :: cs => walkChildren cfg (walkNode cfg st c) cs

end

/-- One step of the merge pass (spec §4.1 step 4): while the running chunk is
smaller than `min_tokens` and the immediately following sibling shares the
same HeadingPath, concatenate them; merging never crosses a HeadingPath
boundary. -/
def mergeInto (cfg : ChunkingConfig) (c : List String × List (Nat × String)) :
    List (List String × List (Nat × String)) →
    List (List String × List (Nat × String))
  | [] => [c]
  | c2 :: rest =>
    if cfg.tokenizer (joinBlank c.1) < cfg.minTokens ∧ c.2 = c2.2 then
      mergeInto cfg (c.1 ++ c2.1, c.2) rest
    else
      c :: mergeInto cfg c2 rest

/-- The `merge_peers` post-pass over the emitted segments (spec §4.1
step 4). -/
def mergePass (cfg : ChunkingConfig) :
    List (List String × List (Nat × String)) →
    List (List String × List (Nat × String))
  | [] => []
  | c :: cs => mergeInto cfg c cs

/-- Modelled from the spec: `chunk(document_tree, config)` (§4.1), the
hierarchical chunker of docling-core invoked in cell-12 but not part of this
repository.  A degenerate config (`max_tokens = 0`) fails fast with a
configuration error; otherwise the tree is walked depth-first, the final
pending segment is flushed, the optional merge pass runs, and each emitted
segment becomes a Chunk whose id is its ordinal position and whose text joins
its leaves with blank lines. -/
def chunk (tree : DocNode) (cfg : ChunkingConfig) : Except String (List Chunk) :=
  if cfg.maxTokens = 0 then
    .error "ConfigurationError: max_tokens must be positive"
  else
    let st := emitSeg (walkNode cfg ⟨[], [], [], []⟩ tree)
    let raw := if cfg.mergePeers then mergePass cfg st.emitted else st.emitted
    .ok (raw.enum.map (fun p =>
      { id := p.1, text := joinBlank p.2.1, headingPath := p.2.2 }))

/-! Helper lemmas shared by the claim theorems. -/

theorem zipWith_getD (f : String → String → String) :
    ∀ (l1 l2 : List String) (i : Nat), i < l1.length → i < l2.length →
      (List.zipWith f l1 l2).getD i "" = f (l1.getD i "") (l2.getD i "") := by
  intro l1
  induction l1 with
  | nil => intro l2 i h1 _; simp at h1
  | cons a l1 ih =>
    intro l2 i h1 h2
    cases l2 with
    | nil => simp at h2
    | cons b l2 =>
      cases i with
      | zero => rfl
      | succ i =>
        simp only [List.zipWith_cons_cons, List.getD_cons_succ]
        exact ih l2 i (by simpa using h1) (by simpa using h2)

theorem enumFrom_map_snd {α : Type} : ∀ (n : Nat) (l : List α),
    (l.enumFrom n).map Prod.snd = l := by
  intro n l
  induction l generalizing n with
  | nil => rfl
  | cons a l ih => simp [ih (n + 1)]

theorem enumFrom_map_fst_map {α β : Type} (g : Nat → β) : ∀ (n : Nat) (l : List α),
    (l.enumFrom n).map (fun p => g p.1) = (List.range' n l.length).map g := by
  intro n l
  induction l generalizing n with
  | nil => rfl
  | cons a l ih => simpa [List.range'] using ih (n + 1)

/-- C1: the claim states that the final embedded text prepends the document
title and the heading-path breadcrumb, with the prefix separated from the
body by a single delimiter line.  Counterexample on the code of cells 12–14:
for a document producing one chunk with body "B" and supplied title "T", the
final embedded text is "T B" — the title followed by a single space and the
body.  It contains no newline at all, so no delimiter line separates a
prefix from the body, and no heading-path breadcrumb is inserted by this
composition step. -/
theorem C1_counterexample :
    chunkingLoop (fun _ : Unit => ["B"]) [()] ["T"] = (["B"], ["T"]) ∧
    concatTitleText ["T"] ["B"] = some ["T B"] ∧
    ("T B".data.contains '\n') = false ∧
    "T B" ≠ "T" ++ "\n" ++ "B" :=
  ⟨rfl, rfl, by decide, by decide⟩

/-- C1 (amended): for every chunk produced for a document with a supplied
title, the final embedded text of cell-14 is the document title, a single
space, and the chunk body, with no further prefix: entry i of the rewritten
list is `titles[i] ++ " " ++ texts[i]`, and the list length is unchanged. -/
theorem C1_title_space_composition (titles texts : List String)
    (hlen : texts.length ≤ titles.length) (i : Nat) (hi : i < texts.length) :
    (concatTitleText titles texts).map (fun r => r.getD i "") =
      some (titles.getD i "" ++ " " ++ texts.getD i "") ∧
    (concatTitleText titles texts).map List.length = some texts.length := by
  unfold concatTitleText
  rw [if_pos hlen]
  refine ⟨?_, ?_⟩
  · simp only [Option.map_some']
    rw [zipWith_getD _ titles texts i (lt_of_lt_of_le hi hlen) hi]
  · simp only [Option.map_some', List.length_zipWith]
    congr 1
    omega

/-- Concrete run of `C1_title_space_composition`: one chunk of the first
paper, title supplied. -/
theorem C1_title_space_composition_witness :
    (concatTitleText ["Attention Is All You Need"] ["chunk body"]).map
        (fun r => r.getD 0 "") =
      some ((["Attention Is All You Need"] : List String).getD 0 "" ++ " " ++
        (["chunk body"] : List String).getD 0 "") ∧
    (concatTitleText ["Attention Is All You Need"] ["chunk body"]).map
        List.length = some (["chunk body"] : List String).length :=
  C1_title_space_composition ["Attention Is All You Need"] ["chunk body"]
    (by decide) 0 (by decide)

/-- C2: the claim states that every inserted chunk's id is a stable,
deterministic function of (document id, ordinal position).  Counterexample
on the code: the records built in cell-22 carry no id field, so the id comes
entirely from the insert call's external id source (a fresh random UUID per
run).  Two runs over the same document record (same payload) can assign
different ids, so reprocessing the same document does not yield identical
ids. -/
theorem C2_counterexample :
    (insertManyWithGen (fun _ => "run-1-uuid") (buildData ["body"] ["T"])).map
        Prod.fst = ["run-1-uuid"] ∧
    (insertManyWithGen (fun _ => "run-2-uuid") (buildData ["body"] ["T"])).map
        Prod.fst = ["run-2-uuid"] ∧
    (insertManyWithGen (fun _ => "run-1-uuid") (buildData ["body"] ["T"])).map
        Prod.snd =
      (insertManyWithGen (fun _ => "run-2-uuid") (buildData ["body"] ["T"])).map
        Prod.snd ∧
    ("run-1-uuid" : String) ≠ "run-2-uuid" :=
  ⟨rfl, rfl, rfl, by decide⟩

/-- C2 (amended): the inserted records carry no id of their own — the record
payload is a deterministic function of the chunk texts and titles, while the
id attached to the record at position i is exactly the external id source's
i-th output, independent of document id and ordinal; ids are stable across
reprocessing only if the external source is (for random UUIDs it is not). -/
theorem C2_ids_from_external_source (gen : Nat → String)
    (texts titles : List String) :
    (insertManyWithGen gen (buildData texts titles)).map Prod.snd =
      buildData texts titles ∧
    (insertManyWithGen gen (buildData texts titles)).map Prod.fst =
      (List.range (buildData texts titles).length).map gen := by
  unfold insertManyWithGen
  refine ⟨?_, ?_⟩
  · rw [List.map_map]
    exact enumFrom_map_snd 0 (buildData texts titles)
  · rw [List.map_map, List.range_eq_range']
    have h := enumFrom_map_fst_map gen 0 (buildData texts titles)
    simpa using h

/-- C7: the claim states that each chunk's context-prefixed text is composed
exactly once at chunk-creation time and never mutated afterwards.
Counterexample on the code: cell-12 stores the chunk's text "B" at creation,
and the later pass of cell-14 overwrites that stored text with "T B" — the
composition is a post-creation mutation of the collected text, not part of
chunk creation. -/
theorem C7_counterexample :
    (chunkingLoop (fun _ : Unit => ["B"]) [()] ["T"]).1 = ["B"] ∧
    concatTitleText ["T"] ["B"] = some ["T B"] ∧
    ("B" : String) ≠ "T B" :=
  ⟨rfl, rfl, by decide⟩

/-- C7 (amended): the title composition is a separate pass (cell-14) that
overwrites each collected chunk text once, after chunk creation; after that
pass no later pipeline step changes the text — the records built in cell-22
carry the composed texts and titles unchanged. -/
theorem C7_composition_then_immutable (texts titles : List String)
    (hlen : texts.length = titles.length) :
    (buildData texts titles).map DataPoint.text = texts ∧
    (buildData texts titles).map DataPoint.title = titles := by
  unfold buildData
  induction texts generalizing titles with
  | nil =>
    cases titles with
    | nil => exact ⟨rfl, rfl⟩
    | cons b bs => simp at hlen
  | cons a as ih =>
    cases titles with
    | nil => simp at hlen
    | cons b bs =>
      have h := ih bs (by simpa using hlen)
      simpa using h

/-- Concrete run of `C7_composition_then_immutable` on two composed chunks. -/
theorem C7_composition_then_immutable_witness :
    (buildData ["T one", "T two"] ["T", "T"]).map DataPoint.text =
      ["T one", "T two"] ∧
    (buildData ["T one", "T two"] ["T", "T"]).map DataPoint.title =
      ["T", "T"] :=
  C7_composition_then_immutable ["T one", "T two"] ["T", "T"] (by decide)

theorem map_insert_clean (name : String) (data : List DataPoint) :
    ∀ (l : Store), (∀ p ∈ l, (p.1 == name) = false) →
      l.map (fun p => if p.1 == name then (p.1, p.2 ++ data) else p) = l := by
  intro l h
  induction l with
  | nil => rfl
  | cons q l ih =>
    have hq := h q (by simp)
    simp only [List.map_cons, hq, if_neg Bool.false_ne_true,
      ih (fun p hp => h p (by simp [hp]))]

theorem clean_delete (s : Store) (name : String) :
    ∀ p ∈ collectionsDelete s name, (p.1 == name) = false := by
  intro p hp
  unfold collectionsDelete at hp
  have h := List.of_mem_filter hp
  simpa [bne] using h

theorem clean_of_not_exists (s : Store) (name : String)
    (h : collectionsExists s name = false) :
    ∀ p ∈ s, (p.1 == name) = false := by
  intro p hp
  unfold collectionsExists at h
  rw [List.any_eq_false] at h
  simpa using h p hp

theorem filter_clean (name : String) :
    ∀ (l : Store), (∀ p ∈ l, (p.1 == name) = false) →
      collectionsDelete l name = l := by
  intro l h
  unfold collectionsDelete
  induction l with
  | nil => rfl
  | cons q l ih =>
    have hq : (q.1 != name) = true := by
      simp [bne, h q (by simp)]
    rw [List.filter_cons, if_pos hq, ih (fun p hp => h p (by simp [hp]))]

theorem create_insert_clean (name : String) (data : List DataPoint)
    (l : Store) (h : ∀ p ∈ l, (p.1 == name) = false) :
    dataInsertMany (collectionsCreate l name) name data = (name, data) :: l := by
  unfold collectionsCreate dataInsertMany
  rw [List.map_cons, map_insert_clean name data l h]
  simp

theorem reindex_shape (s : Store) (name : String) (data : List DataPoint) :
    ∃ s1, reindex s name data = (name, data) :: s1 ∧
      ∀ p ∈ s1, (p.1 == name) = false := by
  unfold reindex
  by_cases h : collectionsExists s name
  · exact ⟨collectionsDelete s name,
      by rw [if_pos h,
        create_insert_clean name data (collectionsDelete s name)
          (clean_delete s name)],
      clean_delete s name⟩
  · have h0 : collectionsExists s name = false := by simpa using h
    exact ⟨s,
      by rw [if_neg h,
        create_insert_clean name data s (clean_of_not_exists s name h0)],
      clean_of_not_exists s name h0⟩

theorem collGet_reindex (s : Store) (name : String) (data : List DataPoint) :
    collGet (reindex s name data) name = some data := by
  obtain ⟨s1, hs, _⟩ := reindex_shape s name data
  rw [hs]
  simp [collGet, List.find?]

/-- C3: the re-indexing sequence of cells 20 and 24 first deletes every
existing record (the delete-if-exists of the collection removes all chunk
records, those of the reprocessed document id included) and then inserts the
new chunk set, so the collection afterwards holds exactly the newly inserted
records — no stale chunk from a previous chunking pass remains. -/
theorem C3_reindex_leaves_no_stale (s : Store) (name : String)
    (data : List DataPoint) :
    collGet (reindex s name data) name = some data :=
  collGet_reindex s name data

/-- C10: running the indexing sequence (delete the collection if it exists,
create it, insert all records) twice with the same records produces the same
store as running it once, and the collection then contains exactly the
records of the latest run. -/
theorem C10_reindex_idempotent (s : Store) (name : String)
    (data : List DataPoint) :
    reindex (reindex s name data) name data = reindex s name data ∧
    collGet (reindex (reindex s name data) name data) name = some data :=
  ⟨by
    obtain ⟨s1, hs, hclean⟩ := reindex_shape s name data
    rw [hs]
    unfold reindex
    have hex : collectionsExists ((name, data) :: s1) name = true := by
      simp [collectionsExists]
    rw [if_pos hex]
    have hdel : collectionsDelete ((name, data) :: s1) name = s1 := by
      unfold collectionsDelete
      rw [List.filter_cons]
      simp only [bne, beq_self_eq_true, Bool.not_true, if_neg Bool.false_ne_true]
      exact filter_clean name s1 hclean
    rw [hdel, create_insert_clean name data s1 hclean],
   collGet_reindex (reindex s name data) name data⟩

theorem insertManyGo_spec (fails : DataPoint → Option String) :
    ∀ (i : Nat) (ds : List DataPoint),
      insertManyGo fails i ds =
        (ds.filter (fun d => (fails d).isNone),
         (ds.enumFrom i).filterMap
           (fun p => (fails p.2).map (fun e => (p.1, e)))) := by
  intro i ds
  induction ds generalizing i with
  | nil => rfl
  | cons d ds ih =>
    simp only [insertManyGo, ih (i + 1), List.enumFrom, List.filterMap_cons,
      List.filter_cons]
    cases hf : fails d with
    | some e => simp [hf]
    | none => simp [hf]

/-- C4: when a batch insert partially fails, the response reports exactly the
failing records — one error per rejected record, keyed by its position in the
batch — and the accepted records remain indexed: the new collection contents
are the old contents followed by every accepted record in order, with no
rollback of the batch. -/
theorem C4_batch_failure_semantics (fails : DataPoint → Option String)
    (contents data : List DataPoint) :
    (insertManyBatch fails contents data).1 =
      contents ++ data.filter (fun d => (fails d).isNone) ∧
    (insertManyBatch fails contents data).2 =
      data.enum.filterMap (fun p => (fails p.2).map (fun e => (p.1, e))) := by
  unfold insertManyBatch
  rw [insertManyGo_spec]
  exact ⟨rfl, rfl⟩

theorem length_insertByScore (score : DataPoint → Nat) (d : DataPoint) :
    ∀ l, (insertByScore score d l).length = l.length + 1 := by
  intro l
  induction l with
  | nil => rfl
  | cons e es ih =>
    unfold insertByScore
    by_cases h : score e < score d
    · simp [h]
    · simp [h, ih]

theorem length_rankByScore (score : DataPoint → Nat) :
    ∀ l, (rankByScore score l).length = l.length := by
  intro l
  induction l with
  | nil => rfl
  | cons d ds ih => simp [rankByScore, length_insertByScore, ih]

/-- C5: the generative query of cell-28 returns a response carrying both the
generated text and the source chunks used: when the collection holds at least
`limit` records, exactly `limit` chunks are retrieved, and the generated text
is the generation service's output on precisely those retrieved chunks. -/
theorem C5_answer_returns_text_and_chunks (score : String → DataPoint → Nat)
    (complete : String → List DataPoint → String) (contents : List DataPoint)
    (query : String) (limit : Nat) (task : String)
    (h : limit ≤ contents.length) :
    (generateNearText score complete contents query limit task).objects.length =
      limit ∧
    (generateNearText score complete contents query limit task).generated =
      complete task
        (generateNearText score complete contents query limit task).objects := by
  unfold generateNearText
  refine ⟨?_, rfl⟩
  simp only [List.length_take, length_rankByScore]
  omega

/-- Concrete run of `C5_answer_returns_text_and_chunks`: a two-record
collection queried with limit 1. -/
theorem C5_answer_returns_text_and_chunks_witness :
    (generateNearText (fun q d => (q ++ d.text).length)
      (fun t l => String.intercalate " " (t :: l.map DataPoint.text))
      [⟨"alpha", "A"⟩, ⟨"beta", "B"⟩] "q" 1 "explain").objects.length = 1 ∧
    (generateNearText (fun q d => (q ++ d.text).length)
      (fun t l => String.intercalate " " (t :: l.map DataPoint.text))
      [⟨"alpha", "A"⟩, ⟨"beta", "B"⟩] "q" 1 "explain").generated =
      (fun t l => String.intercalate " " (t :: l.map DataPoint.text)) "explain"
        (generateNearText (fun q d => (q ++ d.text).length)
          (fun t l => String.intercalate " " (t :: l.map DataPoint.text))
          [⟨"alpha", "A"⟩, ⟨"beta", "B"⟩] "q" 1 "explain").objects :=
  C5_answer_returns_text_and_chunks (fun q d => (q ++ d.text).length)
    (fun t l => String.intercalate " " (t :: l.map DataPoint.text))
    [⟨"alpha", "A"⟩, ⟨"beta", "B"⟩] "q" 1 "explain" (by decide)

/-- C6: the chunker is a pure function of the document tree and the config —
calling it twice on the same inputs yields identical chunk sequences: the
same ids, the same texts, in the same order. -/
theorem C6_chunk_deterministic (tree : DocNode) (cfg : ChunkingConfig)
    (cs1 cs2 : List Chunk) (h1 : chunk tree cfg = .ok cs1)
    (h2 : chunk tree cfg = .ok cs2) :
    cs1.map Chunk.id = cs2.map Chunk.id ∧
    cs1.map Chunk.text = cs2.map Chunk.text ∧ cs1 = cs2 := by
  rw [h1] at h2
  injection h2 with h
  subst h
  exact ⟨rfl, rfl, rfl⟩

/-- Concrete run of `C6_chunk_deterministic`: a document with two sections of
three paragraphs each, chunked twice with `max_tokens = 50`,
`merge_peers = true`, `min_tokens = 40` and a character-count tokenizer; both
runs produce the same four chunks. -/
theorem C6_chunk_deterministic_witness :
    ([⟨0, "aaaaaaaaaaaaaaaaaaaa\n\nbbbbbbbbbbbbbbbbbbbb", [(1, "S1")]⟩,
      ⟨1, "cccccccccccccccccccc", [(1, "S1")]⟩,
      ⟨2, "dddddddddddddddddddd\n\neeeeeeeeeeeeeeeeeeee", [(1, "S2")]⟩,
      ⟨3, "ffffffffffffffffffff", [(1, "S2")]⟩] : List Chunk).map Chunk.id =
    ([⟨0, "aaaaaaaaaaaaaaaaaaaa\n\nbbbbbbbbbbbbbbbbbbbb", [(1, "S1")]⟩,
      ⟨1, "cccccccccccccccccccc", [(1, "S1")]⟩,
      ⟨2, "dddddddddddddddddddd\n\neeeeeeeeeeeeeeeeeeee", [(1, "S2")]⟩,
      ⟨3, "ffffffffffffffffffff", [(1, "S2")]⟩] : List Chunk).map Chunk.id ∧
    ([⟨0, "aaaaaaaaaaaaaaaaaaaa\n\nbbbbbbbbbbbbbbbbbbbb", [(1, "S1")]⟩,
      ⟨1, "cccccccccccccccccccc", [(1, "S1")]⟩,
      ⟨2, "dddddddddddddddddddd\n\neeeeeeeeeeeeeeeeeeee", [(1, "S2")]⟩,
      ⟨3, "ffffffffffffffffffff", [(1, "S2")]⟩] : List Chunk).map Chunk.text =
    ([⟨0, "aaaaaaaaaaaaaaaaaaaa\n\nbbbbbbbbbbbbbbbbbbbb", [(1, "S1")]⟩,
      ⟨1, "cccccccccccccccccccc", [(1, "S1")]⟩,
      ⟨2, "dddddddddddddddddddd\n\neeeeeeeeeeeeeeeeeeee", [(1, "S2")]⟩,
      ⟨3, "ffffffffffffffffffff", [(1, "S2")]⟩] : List Chunk).map Chunk.text ∧
    ([⟨0, "aaaaaaaaaaaaaaaaaaaa\n\nbbbbbbbbbbbbbbbbbbbb", [(1, "S1")]⟩,
      ⟨1, "cccccccccccccccccccc", [(1, "S1")]⟩,
      ⟨2, "dddddddddddddddddddd\n\neeeeeeeeeeeeeeeeeeee", [(1, "S2")]⟩,
      ⟨3, "ffffffffffffffffffff", [(1, "S2")]⟩] : List Chunk) =
    ([⟨0, "aaaaaaaaaaaaaaaaaaaa\n\nbbbbbbbbbbbbbbbbbbbb", [(1, "S1")]⟩,
      ⟨1, "cccccccccccccccccccc", [(1, "S1")]⟩,
      ⟨2, "dddddddddddddddddddd\n\neeeeeeeeeeeeeeeeeeee", [(1, "S2")]⟩,
      ⟨3, "ffffffffffffffffffff", [(1, "S2")]⟩] : List Chunk) :=
  C6_chunk_deterministic
    (.group [.title "Doc",
      .sectionHeader 1 "S1" [.paragraph "aaaaaaaaaaaaaaaaaaaa",
        .paragraph "bbbbbbbbbbbbbbbbbbbb", .paragraph "cccccccccccccccccccc"],
      .sectionHeader 1 "S2" [.paragraph "dddddddddddddddddddd",
        .paragraph "eeeeeeeeeeeeeeeeeeee", .paragraph "ffffffffffffffffffff"]])
    ⟨50, true, 40, String.length⟩ _ _ rfl rfl

theorem chunkingLoop_closed_form {α : Type} (f : α → List String) :
    ∀ (ps : List (α × String)) (a b : List String),
      ps.foldl (fun acc p => (acc.1 ++ f p.1,
          acc.2 ++ (f p.1).map (fun _ => p.2))) (a, b) =
        (a ++ ps.flatMap (fun p => f p.1),
         b ++ ps.flatMap (fun p => (f p.1).map (fun _ => p.2))) := by
  intro ps
  induction ps with
  | nil => intro a b; simp
  | cons q ps ih =>
    intro a b
    simp only [List.foldl_cons, ih, List.flatMap_cons, List.append_assoc]

/-- C8: after the chunking loop of cell-12, the `texts` and `titles` lists
have equal length; each list is the in-order concatenation of one block per
`(document, title)` pair, the block pairing every chunk text of that document
with that document's title — so `titles[i]` is the title of the document from
which `texts[i]` was chunked, document order and within-document chunk order
are preserved, and the records of cell-22 inherit this alignment. -/
theorem C8_texts_titles_aligned {α : Type} (f : α → List String)
    (docs : List α) (sourceTitles : List String) :
    (chunkingLoop f docs sourceTitles).1.length =
      (chunkingLoop f docs sourceTitles).2.length ∧
    (chunkingLoop f docs sourceTitles).1 =
      (docs.zip sourceTitles).flatMap (fun p => f p.1) ∧
    (chunkingLoop f docs sourceTitles).2 =
      (docs.zip sourceTitles).flatMap (fun p => (f p.1).map (fun _ => p.2)) := by
  unfold chunkingLoop
  rw [chunkingLoop_closed_form]
  refine ⟨?_, by simp, by simp⟩
  dsimp only
  rw [List.nil_append, List.nil_append, List.length_flatMap,
    List.length_flatMap]
  congr 1
  apply List.map_congr_left
  intro p _
  simp

theorem zip_take_min {α β : Type} : ∀ (l1 : List α) (l2 : List β),
    l1.zip l2 = (l1.take (min l1.length l2.length)).zip
      (l2.take (min l1.length l2.length)) := by
  intro l1
  induction l1 with
  | nil => intro l2; simp
  | cons a l1 ih =>
    intro l2
    cases l2 with
    | nil => simp
    | cons b l2 =>
      simp only [List.length_cons, Nat.succ_min_succ, List.take_succ_cons,
        List.zip_cons_cons, List.cons.injEq, true_and]
      exact ih l2

/-- C9: the chunking loop pairs documents and titles with `zip`, so when the
two lists have different lengths only the first
`min(len(docs), len(source_titles))` documents are chunked — the loop over
the excess documents or titles never runs, no error is raised, and the
result equals the run on the truncated inputs. -/
theorem C9_zip_truncates_silently {α : Type} (f : α → List String)
    (docs : List α) (sourceTitles : List String) :
    chunkingLoop f docs sourceTitles =
      chunkingLoop f (docs.take (min docs.length sourceTitles.length))
        (sourceTitles.take (min docs.length sourceTitles.length)) ∧
    (docs.zip sourceTitles).length = min docs.length sourceTitles.length := by
  refine ⟨?_, by simp⟩
  unfold chunkingLoop
  rw [← zip_take_min]

end RagWeaviate
